import Mathlib

/-!
Shallow embedding of the gosh-transfer-linux transfer engine.

The definitions below are translated from the Rust sources:
  - src/src-tauri/src/server.rs   (HTTP server: offer, status, chunk upload)
  - src/src-tauri/src/client.rs   (sending client: approval polling)
  - src/crates/gosh-transfer-core/src/settings.rs   (trusted hosts)
  - src/crates/gosh-transfer-core/src/favorites.rs  (favorites load)
  - src/crates/gosh-transfer-core/src/history.rs    (history load)
  - src/crates/gosh-transfer-core/src/types.rs      (error domain)

HashMaps are modelled as association lists with first-match lookup; the
filesystem (the download directory) is an association list from file name to
file content (a list of bytes); the streaming HTTP body is a list of chunks,
each either data or a stream error.
-/

set_option autoImplicit false

namespace GoshTransfer

/-- First-match lookup in an association list (models HashMap::get). -/
def lookupA {β : Type} (k : String) : List (String × β) → Option β
  | [] => none
  | (k1, v) :: rest => if k1 = k then some v else lookupA k rest

/-- Remove every binding of a key (models HashMap::remove). -/
def removeA {β : Type} (k : String) : List (String × β) → List (String × β)
  | [] => []
  | (k1, v) :: rest => if k1 = k then removeA k rest else (k1, v) :: removeA k rest

/-- Insert a binding, replacing any previous one (models HashMap::insert). -/
def insertA {β : Type} (k : String) (v : β) (m : List (String × β)) :
    List (String × β) :=
  (k, v) :: removeA k m

@[simp] theorem lookupA_nil {β : Type} (k : String) :
    lookupA (β := β) k [] = none := rfl

@[simp] theorem lookupA_cons {β : Type} (k k1 : String) (v : β)
    (rest : List (String × β)) :
    lookupA k ((k1, v) :: rest) = if k1 = k then some v else lookupA k rest := rfl

theorem lookupA_insertA_self {β : Type} (k : String) (v : β)
    (m : List (String × β)) : lookupA k (insertA k v m) = some v := by
  simp [insertA]

theorem lookupA_removeA {β : Type} (k q : String) (m : List (String × β))
    (hne : q ≠ k) : lookupA q (removeA k m) = lookupA q m := by
  induction m with
  | nil => rfl
  | cons p rest ih =>
    obtain ⟨k1, v⟩ := p
    by_cases h1 : k1 = k
    · subst h1
      have hkq : k1 ≠ q := fun h => hne h.symm
      simp [removeA, lookupA, hkq, ih]
    · simp [removeA, h1]
      by_cases h2 : k1 = q <;> simp [h2, ih]

theorem lookupA_removeA_self {β : Type} (k : String) (m : List (String × β)) :
    lookupA k (removeA k m) = none := by
  induction m with
  | nil => rfl
  | cons p rest ih =>
    obtain ⟨k1, v⟩ := p
    by_cases h1 : k1 = k <;> simp [removeA, h1, ih]

theorem lookupA_insertA {β : Type} (k q : String) (v : β)
    (m : List (String × β)) (hne : q ≠ k) :
    lookupA q (insertA k v m) = lookupA q m := by
  have hkq : k ≠ q := fun h => hne h.symm
  simp [insertA, lookupA, hkq, lookupA_removeA k q m hne]

theorem removeA_of_lookupA_none {β : Type} (k : String)
    (m : List (String × β)) (h : lookupA k m = none) : removeA k m = m := by
  induction m with
  | nil => rfl
  | cons p rest ih =>
    obtain ⟨k1, v⟩ := p
    by_cases h1 : k1 = k
    · subst h1; simp [lookupA] at h
    · simp [lookupA, h1] at h
      simp [removeA, h1, ih h]

/-! ## Error domain (types.rs, enum AppError) -/

/-- The application error enum from gosh-transfer-core/src/types.rs. -/
inductive AppError where
  | Network (detail : String)
  | DnsResolution (detail : String)
  | ConnectionRefused (detail : String)
  | TransferRejected
  | FileIo (detail : String)
  | Serialization (detail : String)
  | ServerNotRunning
  | InvalidConfig (detail : String)
  | Engine (detail : String)
  deriving DecidableEq, Repr

/-- The io error produced by open_unique_file when every candidate exists
(std::io::Error with kind AlreadyExists). -/
inductive IoError where
  | alreadyExists (msg : String)
  deriving DecidableEq, Repr

/-- From std io Error for AppError (types.rs lines 224-228): the io error
becomes FileIo carrying the error text. -/
def io_error_to_app_error : IoError → AppError
  | .alreadyExists msg => AppError.FileIo msg

/-! ## Settings: add_trusted_host (settings.rs lines 102-110) -/

/-- SettingsStore::add_trusted_host restricted to its effect on the
trusted_hosts vector: push the host only when it is not already present. -/
def add_trusted_host (hosts : List String) (host : String) : List String :=
  if hosts.contains host then hosts else hosts ++ [host]

/-! ## Favorites / history load (favorites.rs 26-45, history.rs 28-51) -/

/-- Outcome of reading and parsing the persistence file backing a store. -/
inductive ReadResult (α : Type) where
  | missing
  | unparseable
  | parsed (val : α)
  deriving DecidableEq, Repr

/-- FileFavoritesStore::new (favorites.rs lines 26-45): a missing file gives
an empty list; a file that exists but fails to parse is a Serialization
error; a parsed file gives its favorites list. -/
def favorites_store_new {α : Type} : ReadResult (List α) → Except AppError (List α)
  | .missing => .ok []
  | .unparseable => .error (AppError.Serialization "Failed to parse favorites")
  | .parsed favs => .ok favs

/-- TransferHistory::new (history.rs lines 28-51): a missing file gives an
empty record list; a file that exists but fails to parse is logged and the
store starts fresh with an empty list; a parsed file gives its records. -/
def transfer_history_new {α : Type} : ReadResult (List α) → Except AppError (List α)
  | .missing => .ok []
  | .unparseable => .ok []
  | .parsed recs => .ok recs

/-! ## Filename sanitization (server.rs lines 126-146) -/

/-- str::trim on a character list: drop whitespace from both ends. -/
def trimList (s : List Char) : List Char :=
  ((s.dropWhile Char.isWhitespace).reverse.dropWhile Char.isWhitespace).reverse

/-- Split a character list on the path separator, keeping empty pieces. -/
def splitOnSlashAux : List Char → List Char → List (List Char)
  | [], acc => [acc.reverse]
  | c :: rest, acc =>
      if c = '/' then acc.reverse :: splitOnSlashAux rest []
      else splitOnSlashAux rest (c :: acc)

def splitOnSlash (s : List Char) : List (List Char) := splitOnSlashAux s []

/-- Path::file_name on Unix: the last path component when it is a normal
component. Empty components and lone-dot components are skipped; a path whose
normalized components end in a parent-dir component (or that has no normal
component at all) has no file name. -/
def rustFileName (s : List Char) : Option (List Char) :=
  let parts := (splitOnSlash s).filter fun p =>
    decide (p ≠ []) && decide (p ≠ ['.'])
  match parts.getLast? with
  | none => none
  | some last => if last = ['.', '.'] then none else some last

/-- sanitize_file_name (server.rs lines 126-137) over character lists: trim
the name, take its Path::file_name, trim that, and fall back to the given
fallback when the result is empty, a lone dot, or a parent dir. -/
def sanitizeCore (name fallback : List Char) : List Char :=
  match rustFileName (trimList name) with
  | none => fallback
  | some n0 =>
      if trimList n0 = [] ∨ trimList n0 = ['.'] ∨ trimList n0 = ['.', '.'] then
        fallback
      else trimList n0

/-- sanitize_file_name (server.rs lines 126-137). -/
def sanitize_file_name (name fallback : String) : String :=
  String.mk (sanitizeCore name.data fallback.data)

/-- str::rsplit_once at the last dot: the pieces before and after it. -/
def rsplitOnceDot : List Char → Option (List Char × List Char)
  | [] => none
  | c :: rest =>
      match rsplitOnceDot rest with
      | some (stem, ext) => some (c :: stem, ext)
      | none => if c = '.' then some ([], rest) else none

/-- split_file_name (server.rs lines 139-146): split at the last dot when the
stem is nonempty, otherwise the whole name with an empty extension. -/
def split_file_name (name : List Char) : List Char × List Char :=
  match rsplitOnceDot name with
  | some (stem, ext) => if stem ≠ [] then (stem, ext) else (name, [])
  | none => (name, [])

/-! ## The download directory as a map from file name to byte content -/

/-- File content: a list of bytes. -/
abbrev FileData := List Nat

/-- The download directory: file name to content, first match wins. -/
abbrev Fs := List (String × FileData)

/-- Whether a file with the given name exists. -/
def fsHas (fs : Fs) (name : String) : Bool := (lookupA name fs).isSome

/-! ## open_unique_file (server.rs lines 148-180) -/

/-- The candidate name tried at a given index: the base name at index 0,
then the stem with a parenthesized index, keeping the extension. -/
def candidate_name (base : String) (index : Nat) : String :=
  if index = 0 then base
  else
    let p := split_file_name base.data
    if p.2 = [] then String.mk p.1 ++ " (" ++ toString index ++ ")"
    else String.mk p.1 ++ " (" ++ toString index ++ ")." ++ String.mk p.2

/-- The loop of open_unique_file: try candidates while they already exist
(create_new fails with AlreadyExists); opening a fresh candidate creates an
empty file. Fuel counts the remaining iterations of the 0..1000 loop. -/
def openUniqueAux (base : String) (fs : Fs) : Nat → Nat → Except IoError (String × Fs)
  | 0, _ => .error (.alreadyExists "Too many filename conflicts")
  | fuel + 1, index =>
      let cand := candidate_name base index
      if fsHas fs cand then openUniqueAux base fs fuel (index + 1)
      else .ok (cand, insertA cand [] fs)

/-- open_unique_file (server.rs lines 148-180): try the base name and up to
999 numbered variants with create-exclusive open; error when all exist. -/
def open_unique_file (fs : Fs) (base_name : String) : Except IoError (String × Fs) :=
  openUniqueAux base_name fs 1000 0

/-! ## Wire and state types (server.rs lines 40-106, types in src-tauri) -/

/-- A file entry inside an offer (TransferFile). -/
structure TransferFile where
  id : String
  name : String
  size : Nat
  mime_type : Option String
  deriving DecidableEq, Repr

/-- The body of POST /transfer (TransferRequest). -/
structure TransferRequest where
  transfer_id : String
  sender_name : Option String
  files : List TransferFile
  total_size : Nat
  deriving DecidableEq, Repr

/-- A pending transfer recorded server-side (PendingTransfer); the wall-clock
received_at field is omitted. -/
structure PendingTransfer where
  id : String
  source_ip : String
  sender_name : Option String
  files : List TransferFile
  total_size : Nat
  deriving DecidableEq, Repr

/-- The response body of POST /transfer (TransferResponse). -/
structure TransferResponse where
  accepted : Bool
  message : Option String
  token : Option String
  deriving DecidableEq, Repr

/-- The approval decision reported by GET /transfer/status. -/
inductive TransferDecision where
  | Pending
  | Accepted
  | Rejected
  | NotFound
  deriving DecidableEq, Repr

/-- The response body of GET /transfer/status (TransferApprovalStatus). -/
structure TransferApprovalStatus where
  status : TransferDecision
  token : Option String
  message : Option String
  deriving DecidableEq, Repr

/-- Events broadcast by the server (ServerEvent, server.rs lines 58-76). -/
inductive ServerEvent where
  | TransferRequestEvent (transfer : PendingTransfer)
  | Progress (transfer_id : String) (current_file : Option String)
      (bytes_transferred : Nat) (total_bytes : Nat)
  | TransferComplete (transfer_id : String)
  | TransferFailed (transfer_id : String) (error : String)
  deriving DecidableEq, Repr

/-- The mutable server state (ServerState, server.rs lines 40-55): the
trusted-host list stands in for the settings, and the download directory
contents are threaded separately as an Fs value. -/
structure ServerState where
  trusted_hosts : List String
  pending_transfers : List (String × PendingTransfer)
  approved_tokens : List (String × String)
  rejected_transfers : List (String × String)
  received_files : List (String × List String)
  deriving DecidableEq, Repr

/-- Query parameters of POST /chunk (ChunkParams). -/
structure ChunkParams where
  transfer_id : String
  file_id : String
  token : String
  deriving DecidableEq, Repr

/-! ## POST /transfer (transfer_request_handler, server.rs lines 203-285) -/

/-- transfer_request_handler: record the offer as pending, clear any earlier
rejection of the same id, then either auto-accept (trusted source ip, fresh
token passed in as freshToken) with no event, or answer pending and emit a
TransferRequest event. Returns the new state, the response, and the emitted
events. -/
def transfer_request_handler (st : ServerState) (source_ip : String)
    (freshToken : String) (request : TransferRequest) :
    ServerState × TransferResponse × List ServerEvent :=
  let computed_total := (request.files.map (fun f => f.size)).sum
  let pending : PendingTransfer :=
    { id := request.transfer_id
      source_ip := source_ip
      sender_name := request.sender_name
      files := request.files
      total_size := computed_total }
  let is_trusted := st.trusted_hosts.any (fun host => host = source_ip)
  let st1 := { st with
    pending_transfers := insertA request.transfer_id pending st.pending_transfers
    rejected_transfers := removeA request.transfer_id st.rejected_transfers }
  if is_trusted then
    let st2 := { st1 with
      approved_tokens := insertA request.transfer_id freshToken st1.approved_tokens
      rejected_transfers := removeA request.transfer_id st1.rejected_transfers }
    (st2,
     { accepted := true
       message := some "Auto-accepted from trusted host"
       token := some freshToken },
     [])
  else
    (st1,
     { accepted := false
       message := some "Awaiting user approval"
       token := none },
     [ServerEvent.TransferRequestEvent pending])

/-! ## GET /transfer/status (transfer_status_handler, server.rs 288-326) -/

/-- transfer_status_handler: approved wins over rejected wins over pending;
otherwise the transfer is unknown. -/
def transfer_status_handler (st : ServerState) (transfer_id : String) :
    TransferApprovalStatus :=
  match lookupA transfer_id st.approved_tokens with
  | some token =>
      { status := .Accepted, token := some token, message := some "Accepted" }
  | none =>
    match lookupA transfer_id st.rejected_transfers with
    | some reason =>
        { status := .Rejected, token := none, message := some reason }
    | none =>
      if (lookupA transfer_id st.pending_transfers).isSome then
        { status := .Pending, token := none
          message := some "Awaiting user approval" }
      else
        { status := .NotFound, token := none
          message := some "Transfer not found" }

/-! ## POST /chunk (chunk_upload_handler, server.rs lines 329-520) -/

/-- One chunk of the streamed request body: data, or a stream read error. -/
inductive BodyChunk where
  | ok (data : FileData)
  | err (msg : String)
  deriving DecidableEq, Repr

/-- Outcome of the body-streaming loop: an early error response, or the body
was consumed and the loop fell through with the received byte count. -/
inductive StreamOutcome where
  | early (status : Nat) (fs : Fs) (events : List ServerEvent)
  | done (bytes : Nat) (fs : Fs) (events : List ServerEvent)
  deriving DecidableEq, Repr

def StreamOutcome.fsOf : StreamOutcome → Fs
  | .early _ fs _ => fs
  | .done _ fs _ => fs

/-- Append data to an existing file (write_all on the open handle). -/
def appendFile (path : String) (data : FileData) (fs : Fs) : Fs :=
  insertA path (((lookupA path fs).getD []) ++ data) fs

/-- The while-let loop of chunk_upload_handler (server.rs lines 400-446):
running over the body chunks, reject with 413 and delete the partial file as
soon as the received bytes would exceed the declared size, answer 500 on a
stream error leaving the partial file, and emit a Progress event per chunk. -/
def stream_loop (size : Nat) (tid : String) (stored_name : String)
    (path : String) :
    List BodyChunk → Nat → Fs → List ServerEvent → StreamOutcome
  | [], bytes, fs, evs => .done bytes fs evs
  | .ok data :: rest, bytes, fs, evs =>
      let next := bytes + data.length
      if size < next then
        .early 413 (removeA path fs) evs
      else
        stream_loop size tid stored_name path rest next (appendFile path data fs)
          (evs ++ [ServerEvent.Progress tid (some stored_name) next size])
  | .err _ :: _, _, fs, evs => .early 500 fs evs

/-- The full result of a POST /chunk request: HTTP status, the stored file
name from the 200 body, the download directory, the server state and the
emitted events. -/
structure ChunkResult where
  status : Nat
  file : Option String
  fs : Fs
  st : ServerState
  events : List ServerEvent
  deriving DecidableEq, Repr

/-- chunk_upload_handler (server.rs lines 329-520): verify the token, find
the pending transfer and the file entry, open a unique file, stream the body,
delete the partial file on a size mismatch, then record the received file and
purge the transfer when all its files have arrived. -/
def chunk_upload_handler (st : ServerState) (fs : Fs) (params : ChunkParams)
    (body : List BodyChunk) : ChunkResult :=
  let expected_token := lookupA params.transfer_id st.approved_tokens
  if expected_token ≠ some params.token then
    { status := 401, file := none, fs := fs, st := st, events := [] }
  else
    match lookupA params.transfer_id st.pending_transfers with
    | none => { status := 404, file := none, fs := fs, st := st, events := [] }
    | some transfer =>
      match transfer.files.find? (fun f => f.id = params.file_id) with
      | none => { status := 404, file := none, fs := fs, st := st, events := [] }
      | some file_info =>
        let safe_name := sanitize_file_name file_info.name file_info.id
        match open_unique_file fs safe_name with
        | .error _ =>
            { status := 500, file := none, fs := fs, st := st, events := [] }
        | .ok (file_path, fs1) =>
          let stored_name := file_path
          match stream_loop file_info.size params.transfer_id stored_name
              file_path body 0 fs1 [] with
          | .early status fs2 evs =>
              { status := status, file := none, fs := fs2, st := st, events := evs }
          | .done bytes_received fs2 evs =>
            if bytes_received ≠ file_info.size then
              { status := 400, file := none, fs := removeA file_path fs2
                st := st, events := evs }
            else
              let tid := params.transfer_id
              let prev := (lookupA tid st.received_files).getD []
              let recSet :=
                if prev.contains params.file_id then prev
                else params.file_id :: prev
              let st1 := { st with
                received_files := insertA tid recSet st.received_files }
              let next :=
                match lookupA tid st1.pending_transfers with
                | some transfer2 =>
                  let expected_count := transfer2.files.length
                  let received_count :=
                    ((lookupA tid st1.received_files).getD []).length
                  if expected_count ≤ received_count then
                    ({ st1 with
                        pending_transfers := removeA tid st1.pending_transfers
                        approved_tokens := removeA tid st1.approved_tokens
                        received_files := removeA tid st1.received_files },
                     [ServerEvent.TransferComplete tid])
                  else (st1, ([] : List ServerEvent))
                | none => (st1, ([] : List ServerEvent))
              { status := 200, file := some stored_name, fs := fs2
                st := next.1, events := evs ++ next.2 }

/-! ## Client approval polling (client.rs lines 199-249) -/

/-- The polling interval of wait_for_approval in milliseconds
(client.rs line 210). The loop sleeps this long after every Pending answer
that is within the ceiling. -/
def poll_interval_ms : Nat := 500

/-- The hard ceiling on waiting for approval in milliseconds
(client.rs line 209). -/
def approval_timeout_ms : Nat := 120000

/-- One iteration of the wait_for_approval loop, given the elapsed time in
milliseconds at the moment the poll answer arrives: some outcome ends the
loop, none means the loop sleeps poll_interval_ms and polls again. -/
def wait_step (elapsed_ms : Nat) (status : TransferApprovalStatus) :
    Option (Except AppError TransferApprovalStatus) :=
  match status.status with
  | .Pending =>
      if approval_timeout_ms < elapsed_ms then
        some (.error (AppError.Network "Transfer approval timed out"))
      else none
  | .Accepted => some (.ok status)
  | .Rejected => some (.error AppError.TransferRejected)
  | .NotFound => some (.error (AppError.Network "Transfer not found"))

/-- wait_for_approval (client.rs lines 199-249) over an observed sequence of
poll answers, each paired with the elapsed milliseconds when it arrived:
the first terminal answer (or a Pending answer past the ceiling) decides; a
fully Pending in-ceiling sequence leaves the loop still polling (none). -/
def wait_for_approval :
    List (Nat × TransferApprovalStatus) →
    Option (Except AppError TransferApprovalStatus)
  | [] => none
  | (t, s) :: rest =>
      match wait_step t s with
      | some r => some r
      | none => wait_for_approval rest

/-! ## Running-sum overflow predicate used for the chunk-size claims -/

/-- Whether, starting from acc received bytes, some prefix of the chunk sizes
pushes the running total strictly past size. -/
def exceedsFrom (acc size : Nat) : List Nat → Bool
  | [] => false
  | n :: rest => if size < acc + n then true else exceedsFrom (acc + n) size rest

/-! ## Claim theorems -/

/-- Claim C1: a POST /chunk request whose token does not equal the stored
approved token for its transfer_id (in particular when no token is stored at
all) is answered 401 and leaves the download directory untouched. -/
theorem chunk_upload_unauthorized (st : ServerState) (fs : Fs)
    (params : ChunkParams) (body : List BodyChunk)
    (h : lookupA params.transfer_id st.approved_tokens ≠ some params.token) :
    (chunk_upload_handler st fs params body).status = 401 ∧
    (chunk_upload_handler st fs params body).fs = fs := by
  simp [chunk_upload_handler, h]

/-- Witness for chunk_upload_unauthorized at a concrete state with no
approved token. -/
theorem chunk_upload_unauthorized_witness :
    (chunk_upload_handler
        { trusted_hosts := [], pending_transfers := [], approved_tokens := []
          rejected_transfers := [], received_files := [] }
        [("keep.txt", [7])]
        { transfer_id := "t1", file_id := "f1", token := "x" }
        [BodyChunk.ok [1, 2]]).status = 401 ∧
    (chunk_upload_handler
        { trusted_hosts := [], pending_transfers := [], approved_tokens := []
          rejected_transfers := [], received_files := [] }
        [("keep.txt", [7])]
        { transfer_id := "t1", file_id := "f1", token := "x" }
        [BodyChunk.ok [1, 2]]).fs = [("keep.txt", [7])] :=
  chunk_upload_unauthorized _ _ _ _ (by decide)

/-- Claim C6: a trusted-source offer is auto-accepted: the fresh token is
stored and returned with accepted true and no event is emitted; an untrusted
offer is answered accepted false with the awaiting-approval message, no
token, and a TransferRequest event carrying the pending transfer. -/
theorem transfer_request_trusted_or_pending (st : ServerState)
    (ip tok : String) (req : TransferRequest) :
    (st.trusted_hosts.any (fun host => host = ip) = true →
      (transfer_request_handler st ip tok req).2.1 =
        { accepted := true, message := some "Auto-accepted from trusted host"
          token := some tok } ∧
      lookupA req.transfer_id
        (transfer_request_handler st ip tok req).1.approved_tokens = some tok ∧
      (transfer_request_handler st ip tok req).2.2 = []) ∧
    (st.trusted_hosts.any (fun host => host = ip) = false →
      (transfer_request_handler st ip tok req).2.1 =
        { accepted := false, message := some "Awaiting user approval"
          token := none } ∧
      (transfer_request_handler st ip tok req).2.2 =
        [ServerEvent.TransferRequestEvent
          { id := req.transfer_id, source_ip := ip
            sender_name := req.sender_name, files := req.files
            total_size := (req.files.map (fun f => f.size)).sum }]) := by
  constructor <;> intro h <;>
    simp [transfer_request_handler, h, lookupA_insertA_self]

/-- Witness for transfer_request_trusted_or_pending: a trusted source ip is
auto-accepted with the stored token. -/
theorem transfer_request_trusted_or_pending_witness :
    (transfer_request_handler
        { trusted_hosts := ["10.0.0.2"], pending_transfers := []
          approved_tokens := [], rejected_transfers := [], received_files := [] }
        "10.0.0.2" "tok-1"
        { transfer_id := "t1", sender_name := some "Alice", files := []
          total_size := 0 }).2.1 =
      { accepted := true, message := some "Auto-accepted from trusted host"
        token := some "tok-1" } ∧
    lookupA "t1"
      (transfer_request_handler
        { trusted_hosts := ["10.0.0.2"], pending_transfers := []
          approved_tokens := [], rejected_transfers := [], received_files := [] }
        "10.0.0.2" "tok-1"
        { transfer_id := "t1", sender_name := some "Alice", files := []
          total_size := 0 }).1.approved_tokens = some "tok-1" ∧
    (transfer_request_handler
        { trusted_hosts := ["10.0.0.2"], pending_transfers := []
          approved_tokens := [], rejected_transfers := [], received_files := [] }
        "10.0.0.2" "tok-1"
        { transfer_id := "t1", sender_name := some "Alice", files := []
          total_size := 0 }).2.2 = [] :=
  (transfer_request_trusted_or_pending _ _ _ _).1 (by decide)

/-- Claim C7: the polling loop of wait_for_approval uses a 500 ms interval
and a 120 s ceiling; a Pending answer inside the ceiling continues the loop,
a Pending answer past the ceiling fails with the timeout Network error,
Accepted returns the status carrying the token, Rejected fails with
TransferRejected, and NotFound fails with Network Transfer not found. -/
theorem wait_for_approval_cases (t : Nat) (s : TransferApprovalStatus)
    (rest : List (Nat × TransferApprovalStatus)) :
    poll_interval_ms = 500 ∧
    approval_timeout_ms = 120000 ∧
    (s.status = .Pending → t ≤ approval_timeout_ms →
      wait_for_approval ((t, s) :: rest) = wait_for_approval rest) ∧
    (s.status = .Pending → approval_timeout_ms < t →
      wait_for_approval ((t, s) :: rest) =
        some (.error (AppError.Network "Transfer approval timed out"))) ∧
    (s.status = .Accepted →
      wait_for_approval ((t, s) :: rest) = some (.ok s)) ∧
    (s.status = .Rejected →
      wait_for_approval ((t, s) :: rest) =
        some (.error AppError.TransferRejected)) ∧
    (s.status = .NotFound →
      wait_for_approval ((t, s) :: rest) =
        some (.error (AppError.Network "Transfer not found"))) := by
  refine ⟨rfl, rfl, ?_, ?_, ?_, ?_, ?_⟩ <;> intro h
  · intro hle
    simp [wait_for_approval, wait_step, h, Nat.not_lt.mpr hle]
  · intro hlt
    simp [wait_for_approval, wait_step, h, hlt]
  · simp [wait_for_approval, wait_step, h]
  · simp [wait_for_approval, wait_step, h]
  · simp [wait_for_approval, wait_step, h]

/-- Witness for wait_for_approval_cases: an Accepted answer ends the loop
with the status carrying the token. -/
theorem wait_for_approval_cases_witness :
    wait_for_approval
        [(700, { status := .Accepted, token := some "tok-1"
                 message := some "Accepted" })] =
      some (.ok { status := .Accepted, token := some "tok-1"
                  message := some "Accepted" }) :=
  (wait_for_approval_cases 700
    { status := .Accepted, token := some "tok-1", message := some "Accepted" }
    []).2.2.2.2.1 rfl

/-- Claim C8: constructing the favorites store over an existing but
unparseable file fails with a Serialization error, while the history store
starts with an empty record list; for both stores a missing file yields an
empty store. -/
theorem store_load_divergence (α : Type) :
    favorites_store_new (α := α) ReadResult.unparseable =
      Except.error (AppError.Serialization "Failed to parse favorites") ∧
    transfer_history_new (α := α) ReadResult.unparseable = Except.ok [] ∧
    favorites_store_new (α := α) ReadResult.missing = Except.ok [] ∧
    transfer_history_new (α := α) ReadResult.missing = Except.ok [] :=
  ⟨rfl, rfl, rfl, rfl⟩

/-- Claim C10: add_trusted_host is idempotent, and the count of the added
host in the result is the old count when it was already present and exactly
one otherwise, so the operation never introduces a duplicate. -/
theorem add_trusted_host_idempotent (hosts : List String) (host : String) :
    add_trusted_host (add_trusted_host hosts host) host =
      add_trusted_host hosts host ∧
    (add_trusted_host hosts host).count host = max (hosts.count host) 1 := by
  by_cases hm : host ∈ hosts
  · constructor
    · simp [add_trusted_host, hm]
    · simp [add_trusted_host, hm]
  · constructor
    · simp [add_trusted_host, hm]
    · simp [add_trusted_host, hm, List.count_append,
        List.count_eq_zero.mpr hm]

/-! ## Lemmas about open_unique_file -/

theorem fsHas_false_lookup {fs : Fs} {name : String}
    (h : fsHas fs name = false) : lookupA name fs = none := by
  cases hl : lookupA name fs with
  | none => rfl
  | some v => simp [fsHas, hl] at h

theorem openUniqueAux_all_taken (base : String) (fs : Fs) :
    ∀ fuel index,
      (∀ i, i < fuel → fsHas fs (candidate_name base (index + i)) = true) →
      openUniqueAux base fs fuel index =
        .error (IoError.alreadyExists "Too many filename conflicts") := by
  intro fuel
  induction fuel with
  | zero => intro index h; rfl
  | succ n ih =>
    intro index h
    have h0 : fsHas fs (candidate_name base index) = true := by
      have := h 0 (Nat.succ_pos n)
      simpa using this
    simp only [openUniqueAux, h0, if_true]
    apply ih
    intro i hi
    have hix : index + 1 + i = index + (i + 1) := by omega
    rw [hix]
    exact h (i + 1) (by omega)

theorem openUniqueAux_first_free (base : String) (fs : Fs) :
    ∀ fuel index j, j < fuel →
      fsHas fs (candidate_name base (index + j)) = false →
      (∀ i, i < j → fsHas fs (candidate_name base (index + i)) = true) →
      openUniqueAux base fs fuel index =
        .ok (candidate_name base (index + j),
             insertA (candidate_name base (index + j)) [] fs) := by
  intro fuel
  induction fuel with
  | zero => intro index j hj; omega
  | succ n ih =>
    intro index j hj hfree htaken
    cases j with
    | zero =>
      simp only [Nat.add_zero] at hfree ⊢
      simp [openUniqueAux, hfree]
    | succ j0 =>
      have h0 : fsHas fs (candidate_name base index) = true := by
        have := htaken 0 (Nat.succ_pos j0)
        simpa using this
      simp only [openUniqueAux, h0, if_true]
      have hix : index + 1 + j0 = index + (j0 + 1) := by omega
      have := ih (index + 1) j0 (by omega)
        (by rw [hix]; exact hfree)
        (by
          intro i hi
          have hiy : index + 1 + i = index + (i + 1) := by omega
          rw [hiy]
          exact htaken (i + 1) (by omega))
      rw [hix] at this
      exact this

theorem openUniqueAux_ok_inv (base : String) (fs : Fs) :
    ∀ fuel index p f1,
      openUniqueAux base fs fuel index = .ok (p, f1) →
      lookupA p fs = none ∧ f1 = insertA p [] fs := by
  intro fuel
  induction fuel with
  | zero => intro index p f1 h; simp [openUniqueAux] at h
  | succ n ih =>
    intro index p f1 h
    by_cases hc : fsHas fs (candidate_name base index) = true
    · simp only [openUniqueAux, hc, if_true] at h
      exact ih _ _ _ h
    · have hc2 : fsHas fs (candidate_name base index) = false := by
        simpa using hc
      simp only [openUniqueAux, hc2, Bool.false_eq_true, if_false] at h
      obtain ⟨hp, hf⟩ := Prod.mk.injEq .. ▸ (Except.ok.injEq .. ▸ h)
      subst hp
      exact ⟨fsHas_false_lookup hc2, hf.symm⟩

theorem open_unique_file_ok_inv (fs : Fs) (base path : String) (fs1 : Fs)
    (h : open_unique_file fs base = .ok (path, fs1)) :
    lookupA path fs = none ∧ fs1 = insertA path [] fs :=
  openUniqueAux_ok_inv base fs 1000 0 path fs1 h

/-- Claim C5: open_unique_file tries the base name and then up to 999
numbered candidates with create-exclusive open: the first candidate that does
not already exist is created (so the stored name is distinct from every
existing file), and when all 1000 candidates exist the call fails with an
AlreadyExists io error which converts to a FileIo application error. -/
theorem open_unique_file_collision_spec (fs : Fs) (base : String) :
    ((∀ i, i < 1000 → fsHas fs (candidate_name base i) = true) →
      open_unique_file fs base =
        .error (IoError.alreadyExists "Too many filename conflicts") ∧
      io_error_to_app_error (IoError.alreadyExists "Too many filename conflicts") =
        AppError.FileIo "Too many filename conflicts") ∧
    (∀ j, j < 1000 → fsHas fs (candidate_name base j) = false →
      (∀ i, i < j → fsHas fs (candidate_name base i) = true) →
      open_unique_file fs base =
        .ok (candidate_name base j, insertA (candidate_name base j) [] fs) ∧
      lookupA (candidate_name base j) fs = none) := by
  constructor
  · intro h
    refine ⟨?_, rfl⟩
    have := openUniqueAux_all_taken base fs 1000 0 (by simpa using h)
    simpa [open_unique_file] using this
  · intro j hj hfree htaken
    have := openUniqueAux_first_free base fs 1000 0 j hj
      (by simpa using hfree) (by simpa using htaken)
    refine ⟨by simpa [open_unique_file] using this, fsHas_false_lookup hfree⟩

/-- Witness for open_unique_file_collision_spec: with a.txt already present,
the upload is stored as a (1).txt, a name that did not exist before. -/
theorem open_unique_file_collision_spec_witness :
    open_unique_file [("a.txt", [1])] "a.txt" =
      .ok ("a (1).txt", insertA "a (1).txt" [] [("a.txt", [1])]) ∧
    lookupA "a (1).txt" [("a.txt", [1])] = none :=
  (open_unique_file_collision_spec [("a.txt", [1])] "a.txt").2 1
    (by decide) (by decide) (by decide)

/-- Claim C2 counterexample: with transfer t1 recorded as rejected, a later
POST /transfer offer reusing t1 removes the rejection, and the status
endpoint then reports Pending instead of Rejected. -/
theorem rejected_cleared_by_reoffer :
    (transfer_status_handler
      { trusted_hosts := [], pending_transfers := [], approved_tokens := []
        rejected_transfers := [("t1", "no thanks")], received_files := [] }
      "t1").status = TransferDecision.Rejected ∧
    (transfer_status_handler
      ((transfer_request_handler
        { trusted_hosts := [], pending_transfers := [], approved_tokens := []
          rejected_transfers := [("t1", "no thanks")], received_files := [] }
        "10.0.0.9" "tok-9"
        { transfer_id := "t1", sender_name := none, files := []
          total_size := 0 }).1)
      "t1").status = TransferDecision.Pending := by
  constructor <;> rfl

/-- Claim C2 amended: while a transfer id sits in rejected_transfers (and has
no approved token), the status endpoint reports Rejected and a chunk upload
never touches the rejection map; but a later POST /transfer offer reusing the
same transfer_id removes the rejection. -/
theorem rejection_stable_except_reoffer (st : ServerState) (id reason : String)
    (hrej : lookupA id st.rejected_transfers = some reason)
    (hacc : lookupA id st.approved_tokens = none) :
    (transfer_status_handler st id).status = TransferDecision.Rejected ∧
    (∀ fs params body,
      (chunk_upload_handler st fs params body).st.rejected_transfers =
        st.rejected_transfers) ∧
    (∀ ip tok req, req.transfer_id = id →
      lookupA id
        ((transfer_request_handler st ip tok req).1).rejected_transfers =
          none) := by
  refine ⟨?_, ?_, ?_⟩
  · simp [transfer_status_handler, hacc, hrej]
  · intro fs params body
    simp only [chunk_upload_handler]
    repeat first
      | rfl
      | split
  · intro ip tok req hid
    subst hid
    by_cases htr : st.trusted_hosts.any (fun host => host = ip) = true
    · simp [transfer_request_handler, htr, lookupA_removeA_self]
    · simp only [Bool.not_eq_true] at htr
      simp [transfer_request_handler, htr, lookupA_removeA_self]

/-- Witness for rejection_stable_except_reoffer at a concrete rejected
state. -/
theorem rejection_stable_except_reoffer_witness :
    (transfer_status_handler
      { trusted_hosts := [], pending_transfers := [], approved_tokens := []
        rejected_transfers := [("t2", "busy")], received_files := [] }
      "t2").status = TransferDecision.Rejected :=
  (rejection_stable_except_reoffer
    { trusted_hosts := [], pending_transfers := [], approved_tokens := []
      rejected_transfers := [("t2", "busy")], received_files := [] }
    "t2" "busy" (by decide) (by decide)).1

/-! ## Safety of sanitized names -/

/-- What the spec calls a safe stored filename: non-empty, not a dot or
parent-dir segment, and free of path separators. -/
abbrev safe_stored_name (n : List Char) : Prop :=
  n ≠ [] ∧ n ≠ ['.'] ∧ n ≠ ['.', '.'] ∧ ('/' : Char) ∉ n

theorem mem_of_mem_dropWhile {α : Type} (p : α → Bool) :
    ∀ (l : List α) (a : α), a ∈ l.dropWhile p → a ∈ l := by
  intro l
  induction l with
  | nil => intro a h; simp at h
  | cons x xs ih =>
    intro a h
    by_cases hp : p x = true
    · rw [List.dropWhile_cons_of_pos hp] at h
      exact List.mem_cons_of_mem x (ih a h)
    · rw [List.dropWhile_cons_of_neg (by simpa using hp)] at h
      exact h

theorem mem_of_mem_trimList {c : Char} {s : List Char}
    (h : c ∈ trimList s) : c ∈ s := by
  unfold trimList at h
  rw [List.mem_reverse] at h
  have h1 := mem_of_mem_dropWhile _ _ _ h
  rw [List.mem_reverse] at h1
  exact mem_of_mem_dropWhile _ _ _ h1

theorem splitOnSlashAux_no_slash :
    ∀ (s acc p : List Char), p ∈ splitOnSlashAux s acc →
      ('/' : Char) ∉ acc → ('/' : Char) ∉ p := by
  intro s
  induction s with
  | nil =>
    intro acc p hp hacc
    simp [splitOnSlashAux] at hp
    subst hp
    simpa using hacc
  | cons c rest ih =>
    intro acc p hp hacc
    by_cases hc : c = '/'
    · subst hc
      simp [splitOnSlashAux] at hp
      rcases hp with hp | hp
      · subst hp; simpa using hacc
      · exact ih [] p hp (by simp)
    · simp [splitOnSlashAux, hc] at hp
      refine ih (c :: acc) p hp ?_
      intro hmem
      rcases List.mem_cons.mp hmem with h1 | h1
      · exact hc h1.symm
      · exact hacc h1

theorem mem_of_getLast? {α : Type} :
    ∀ {l : List α} {a : α}, l.getLast? = some a → a ∈ l := by
  intro l
  induction l with
  | nil => intro a h; simp at h
  | cons x xs ih =>
    intro a h
    cases xs with
    | nil =>
      simp only [List.getLast?_singleton, Option.some.injEq] at h
      simp [h]
    | cons y ys =>
      rw [List.getLast?_cons_cons] at h
      exact List.mem_cons_of_mem _ (ih h)

theorem rustFileName_no_slash {s n0 : List Char}
    (h : rustFileName s = some n0) : ('/' : Char) ∉ n0 := by
  simp only [rustFileName] at h
  cases hg : ((splitOnSlash s).filter fun p =>
      decide (p ≠ []) && decide (p ≠ ['.'])).getLast? with
  | none => rw [hg] at h; simp at h
  | some last =>
    rw [hg] at h
    by_cases hl : last = ['.', '.']
    · simp [hl] at h
    · simp only [hl, if_false, Option.some.injEq] at h
      subst h
      have hmem := List.mem_of_mem_filter (mem_of_getLast? hg)
      exact splitOnSlashAux_no_slash s [] last hmem (by simp)

/-- Claim C4 counterexample: the fallback is the client-supplied file id and
is not re-checked, so an offer named with a bare parent-dir segment and an
id containing a separator yields a stored name with a path separator. -/
theorem sanitize_fallback_unsafe :
    sanitize_file_name ".." "a/b" = "a/b" ∧
    ('/' : Char) ∈ (sanitize_file_name ".." "a/b").data := by
  exact ⟨rfl, by decide⟩

/-- Claim C4 amended: sanitize_file_name takes the basename, trims it and
rejects empty, dot and parent-dir results, substituting file.id; whenever the
fallback id is itself a safe name, the derived stored filename is non-empty,
free of path separators, and neither a dot nor a parent-dir segment. -/
theorem sanitize_file_name_safe (name fallback : String)
    (h : safe_stored_name fallback.data) :
    safe_stored_name (sanitize_file_name name fallback).data := by
  show safe_stored_name (sanitizeCore name.data fallback.data)
  unfold sanitizeCore
  split
  · exact h
  · next n0 hf =>
    split
    · exact h
    · next hcond =>
      push_neg at hcond
      refine ⟨hcond.1, hcond.2.1, hcond.2.2, ?_⟩
      intro hmem
      exact rustFileName_no_slash hf (mem_of_mem_trimList hmem)

/-- Witness for sanitize_file_name_safe: a traversal attempt with a safe id
is stripped to a safe basename. -/
theorem sanitize_file_name_safe_witness :
    safe_stored_name ("fid".data) ∧
    safe_stored_name ((sanitize_file_name "../../etc/passwd" "fid").data) :=
  ⟨by decide, sanitize_file_name_safe "../../etc/passwd" "fid" (by decide)⟩

/-! ## Lemmas about the body-streaming loop -/

theorem removeA_cons_self_of_none {c : FileData} {path : String} {fs0 : Fs}
    (h : lookupA path fs0 = none) :
    removeA path ((path, c) :: fs0) = fs0 := by
  simp [removeA, removeA_of_lookupA_none path fs0 h]

theorem appendFile_cons_self {c d : FileData} {path : String} {fs0 : Fs}
    (h : lookupA path fs0 = none) :
    appendFile path d ((path, c) :: fs0) = (path, c ++ d) :: fs0 := by
  simp [appendFile, insertA, lookupA, removeA, removeA_of_lookupA_none path fs0 h]

theorem stream_loop_lookup_other (size : Nat) (tid sname path q : String)
    (hq : q ≠ path) :
    ∀ (body : List BodyChunk) (bytes : Nat) (fs : Fs) (evs : List ServerEvent),
      lookupA q (stream_loop size tid sname path body bytes fs evs).fsOf =
        lookupA q fs := by
  intro body
  induction body with
  | nil => intro bytes fs evs; simp [stream_loop, StreamOutcome.fsOf]
  | cons ch rest ih =>
    intro bytes fs evs
    cases ch with
    | ok d =>
      by_cases hlt : size < bytes + d.length
      · simp [stream_loop, hlt, StreamOutcome.fsOf,
          lookupA_removeA path q fs hq]
      · simp only [stream_loop, hlt, if_false]
        rw [ih]
        simp [appendFile, lookupA_insertA path q _ fs hq]
    | err m => simp [stream_loop, StreamOutcome.fsOf]

theorem stream_loop_early_413_or_500 (size : Nat) (tid sname path : String) :
    ∀ (body : List BodyChunk) (bytes : Nat) (fs : Fs) (evs : List ServerEvent)
      (s : Nat) (fs2 : Fs) (evs2 : List ServerEvent),
      stream_loop size tid sname path body bytes fs evs =
        .early s fs2 evs2 → s = 413 ∨ s = 500 := by
  intro body
  induction body with
  | nil => intro bytes fs evs s fs2 evs2 h; simp [stream_loop] at h
  | cons ch rest ih =>
    intro bytes fs evs s fs2 evs2 h
    cases ch with
    | ok d =>
      by_cases hlt : size < bytes + d.length
      · simp only [stream_loop, hlt, if_true, StreamOutcome.early.injEq] at h
        exact Or.inl h.1.symm
      · simp only [stream_loop, hlt, if_false] at h
        exact ih _ _ _ _ _ _ h
    | err m =>
      simp only [stream_loop, StreamOutcome.early.injEq] at h
      exact Or.inr h.1.symm

theorem stream_loop_exceeds (size : Nat) (tid sname path : String)
    (fs0 : Fs) (h0 : lookupA path fs0 = none) :
    ∀ (datas : List FileData) (bytes : Nat) (c : FileData)
      (evs : List ServerEvent),
      exceedsFrom bytes size (datas.map List.length) = true →
      ∃ evs2,
        stream_loop size tid sname path (datas.map BodyChunk.ok) bytes
          ((path, c) :: fs0) evs = .early 413 fs0 evs2 := by
  intro datas
  induction datas with
  | nil => intro bytes c evs hx; simp [exceedsFrom] at hx
  | cons d rest ih =>
    intro bytes c evs hx
    by_cases hlt : size < bytes + d.length
    · refine ⟨evs, ?_⟩
      simp [stream_loop, hlt, removeA_cons_self_of_none h0]
    · simp only [List.map, exceedsFrom, hlt, if_false] at hx
      simp only [List.map, stream_loop, hlt, if_false]
      rw [appendFile_cons_self h0]
      exact ih (bytes + d.length) (c ++ d) _ hx

theorem stream_loop_complete (size : Nat) (tid sname path : String)
    (fs0 : Fs) (h0 : lookupA path fs0 = none) :
    ∀ (datas : List FileData) (bytes : Nat) (c : FileData)
      (evs : List ServerEvent),
      exceedsFrom bytes size (datas.map List.length) = false →
      ∃ evs2 content,
        stream_loop size tid sname path (datas.map BodyChunk.ok) bytes
          ((path, c) :: fs0) evs =
          .done (bytes + (datas.map List.length).sum)
            ((path, content) :: fs0) evs2 := by
  intro datas
  induction datas with
  | nil =>
    intro bytes c evs hx
    exact ⟨evs, c, by simp [stream_loop]⟩
  | cons d rest ih =>
    intro bytes c evs hx
    by_cases hlt : size < bytes + d.length
    · simp [List.map, exceedsFrom, hlt] at hx
    · simp only [List.map, exceedsFrom, hlt, if_false] at hx
      simp only [List.map, stream_loop, hlt, if_false]
      rw [appendFile_cons_self h0]
      obtain ⟨evs2, content, heq⟩ := ih (bytes + d.length) (c ++ d) _ hx
      refine ⟨evs2, content, ?_⟩
      rw [heq]
      simp only [List.sum_cons]
      congr 1
      omega

/-- Claim C3: for an authorized chunk upload whose transfer and file entry
exist and whose unique file opens, a body whose running byte total ever
exceeds the declared size is answered 413, and a fully received body whose
total differs from the declared size is answered 400; in both cases the
partial file is deleted and the download directory is exactly as before. -/
theorem chunk_upload_partial_cleanup (st : ServerState) (fs : Fs)
    (params : ChunkParams) (datas : List FileData)
    (transfer : PendingTransfer) (file_info : TransferFile)
    (path : String) (fs1 : Fs)
    (h1 : lookupA params.transfer_id st.approved_tokens = some params.token)
    (h2 : lookupA params.transfer_id st.pending_transfers = some transfer)
    (h3 : transfer.files.find? (fun f => f.id = params.file_id) = some file_info)
    (h4 : open_unique_file fs (sanitize_file_name file_info.name file_info.id) =
      .ok (path, fs1)) :
    (exceedsFrom 0 file_info.size (datas.map List.length) = true →
      (chunk_upload_handler st fs params (datas.map BodyChunk.ok)).status = 413 ∧
      (chunk_upload_handler st fs params (datas.map BodyChunk.ok)).fs = fs) ∧
    (exceedsFrom 0 file_info.size (datas.map List.length) = false →
      (datas.map List.length).sum ≠ file_info.size →
      (chunk_upload_handler st fs params (datas.map BodyChunk.ok)).status = 400 ∧
      (chunk_upload_handler st fs params (datas.map BodyChunk.ok)).fs = fs) := by
  obtain ⟨hnone, hfs1⟩ := open_unique_file_ok_inv fs _ path fs1 h4
  have hfs1c : fs1 = (path, []) :: fs := by
    rw [hfs1, insertA, removeA_of_lookupA_none path fs hnone]
  constructor
  · intro hx
    obtain ⟨evs2, hsl⟩ := stream_loop_exceeds file_info.size
      params.transfer_id path path fs hnone datas 0 [] [] hx
    rw [← hfs1c] at hsl
    constructor <;> simp [chunk_upload_handler, h1, h2, h3, h4, hsl]
  · intro hx hsum
    obtain ⟨evs2, content, hsl⟩ := stream_loop_complete file_info.size
      params.transfer_id path path fs hnone datas 0 [] [] hx
    rw [← hfs1c] at hsl
    constructor <;>
      simp [chunk_upload_handler, h1, h2, h3, h4, hsl, hsum,
        removeA_cons_self_of_none hnone]

/-- Witness for chunk_upload_partial_cleanup: a declared one-byte file that
receives two bytes gets 413 and the download directory is unchanged. -/
theorem chunk_upload_partial_cleanup_witness :
    (chunk_upload_handler
        { trusted_hosts := []
          pending_transfers :=
            [("t1", { id := "t1", source_ip := "10.0.0.2", sender_name := none
                      files := [{ id := "f1", name := "a.txt", size := 1
                                  mime_type := none }]
                      total_size := 1 })]
          approved_tokens := [("t1", "tok")]
          rejected_transfers := [], received_files := [] }
        [] { transfer_id := "t1", file_id := "f1", token := "tok" }
        ([[5, 6]].map BodyChunk.ok)).status = 413 ∧
    (chunk_upload_handler
        { trusted_hosts := []
          pending_transfers :=
            [("t1", { id := "t1", source_ip := "10.0.0.2", sender_name := none
                      files := [{ id := "f1", name := "a.txt", size := 1
                                  mime_type := none }]
                      total_size := 1 })]
          approved_tokens := [("t1", "tok")]
          rejected_transfers := [], received_files := [] }
        [] { transfer_id := "t1", file_id := "f1", token := "tok" }
        ([[5, 6]].map BodyChunk.ok)).fs = [] :=
  (chunk_upload_partial_cleanup _ [] _ [[5, 6]]
      { id := "t1", source_ip := "10.0.0.2", sender_name := none
        files := [{ id := "f1", name := "a.txt", size := 1, mime_type := none }]
        total_size := 1 }
      { id := "f1", name := "a.txt", size := 1, mime_type := none }
      "a.txt" [("a.txt", [])]
      (by decide) (by decide) (by decide) rfl).1 (by decide)

/-- Claim C9: a chunk upload opens its target with create-exclusive
semantics, so every file already in the download directory keeps its exact
content whatever the outcome, and a successful upload stores its bytes under
a name that did not exist before the request. -/
theorem chunk_upload_never_overwrites (st : ServerState) (fs : Fs)
    (params : ChunkParams) (body : List BodyChunk) (p : String) (c : FileData)
    (h : lookupA p fs = some c) :
    lookupA p (chunk_upload_handler st fs params body).fs = some c ∧
    ((chunk_upload_handler st fs params body).status = 200 →
      ∃ n, (chunk_upload_handler st fs params body).file = some n ∧
        lookupA n fs = none) := by
  simp only [chunk_upload_handler]
  split
  · exact ⟨h, by intro h200; simp at h200⟩
  · split
    · exact ⟨h, by intro h200; simp at h200⟩
    · rename_i x1 transfer htr
      split
      · exact ⟨h, by intro h200; simp at h200⟩
      · rename_i x2 file_info hfi
        split
        · exact ⟨h, by intro h200; simp at h200⟩
        · rename_i file_path fs1 hop
          obtain ⟨hnone, hfs1⟩ := open_unique_file_ok_inv fs _ _ _ hop
          have hpne : p ≠ file_path := by
            intro hEq
            rw [hEq, hnone] at h
            cases h
          have hlk1 : lookupA p fs1 = some c := by
            rw [hfs1, lookupA_insertA file_path p [] fs hpne]
            exact h
          split
          · rename_i s2 fs2 evs2 hsl
            constructor
            · have hpre := stream_loop_lookup_other file_info.size
                params.transfer_id file_path file_path p hpne body 0 fs1 []
              rw [hsl] at hpre
              simpa [StreamOutcome.fsOf, hlk1] using hpre
            · intro h200
              simp only [] at h200
              rcases stream_loop_early_413_or_500 _ _ _ _ _ _ _ _ _ _ _ hsl
                with h413 | h500 <;> omega
          · rename_i bytes fs2 evs2 hsl
            have hpre := stream_loop_lookup_other file_info.size
              params.transfer_id file_path file_path p hpne body 0 fs1 []
            rw [hsl] at hpre
            simp only [StreamOutcome.fsOf] at hpre
            rw [hlk1] at hpre
            split
            · constructor
              · simpa [lookupA_removeA file_path p fs2 hpne] using hpre
              · intro h200; simp at h200
            · exact ⟨hpre, fun _ => ⟨file_path, rfl, hnone⟩⟩

/-- Witness for chunk_upload_never_overwrites: a pre-existing file keeps its
content across an unauthorized upload. -/
theorem chunk_upload_never_overwrites_witness :
    lookupA "keep.txt"
      (chunk_upload_handler
        { trusted_hosts := [], pending_transfers := [], approved_tokens := []
          rejected_transfers := [], received_files := [] }
        [("keep.txt", [9])]
        { transfer_id := "t1", file_id := "f1", token := "x" }
        [BodyChunk.ok [1]]).fs = some [9] :=
  (chunk_upload_never_overwrites _ [("keep.txt", [9])] _ [BodyChunk.ok [1]]
    "keep.txt" [9] (by decide)).1

end GoshTransfer
